import Mathlib

/-!
# mrkt-api: the admin controller

A shallow embedding of `controllers/admin.go` and `constants/constants.go`.

The controller is stateful Go code: it writes to an `http.ResponseWriter`, to the
diagnostic logger, calls into the `handlers` package and may hand the request to the
next handler of the chain. All of these effects are made explicit in a `World` value
that every function takes and returns. The `handlers` and `models` packages, the JSON
validator rules and the query-string parser are collaborators whose code is outside
the two embedded files; they are the fields of `Env`.
-/

set_option autoImplicit false

namespace Mrkt

/-! ## constants/constants.go -/

namespace constants

def IncorrectCredentials : String := "The details you entered seem to be incorrect."

def AccessDenied : String := "You do not have permission to access this resource."

def InvalidParams : String := "The data you provided is incorrect."

/-- The Go body is `fmt.Sprintf("This %s was not found.", resource)`. -/
def ResourceNotFound (resource : String) : String :=
  "This " ++ resource ++ " was not found."

end constants

/-! ## net/http status codes used by the controller -/

def StatusBadRequest : Nat := 400
def StatusUnauthorized : Nat := 401
def StatusForbidden : Nat := 403
def StatusInternalServerError : Nat := 500

/-! ## Data model -/

/-- Modelled from the spec: the type declaration `models.User` is not part of the two
embedded files. Section 3 of the specification lists the attributes of a user record:
unique id, email, password (stored as a hash), integer role rank and admin flag. The
controller itself reads `Password` and writes `IsAdmin`. -/
structure User where
  ID : String
  Email : String
  Password : String
  Rank : Int
  IsAdmin : Bool
  deriving DecidableEq, Repr

/-- The controller's `loginBody`. -/
structure loginBody where
  Email : String
  Password : String
  deriving DecidableEq, Repr

/-- Modelled from the spec: the identity claim returned by `handlers.VerifyJWTToken`
(subject user id and admin-scope flag); the controller reads `UserID`. -/
structure Claim where
  UserID : String
  IsAdmin : Bool
  deriving DecidableEq, Repr

/-- A Go `map[string]...` with string values, as an association list with distinct keys. -/
abbrev StrMap := List (String × String)

/-- The assignment `m[k] = v` of a Go map: an existing entry for `k` is overwritten in
place, otherwise the entry is added. -/
def StrMap.set : StrMap → String → String → StrMap
  | [], k, v => [(k, v)]
  | (k', v') :: rest, k, v =>
    if k' = k then (k, v) :: rest else (k', v') :: StrMap.set rest k v

/-- The read `m[k]` of a Go map, `none` when the key is absent. -/
def StrMap.get? : StrMap → String → Option String
  | [], _ => none
  | (k', v') :: rest, k => if k' = k then some v' else StrMap.get? rest k

/-- The `interface{}` payloads that the controller puts in the `data` field of an
envelope: a string-valued map (`defaultRes`, the validation errors, the token map),
a user record, or whatever value a `handlers` function returned. -/
inductive Data where
  | map (m : StrMap)
  | user (u : User)
  | result (rendering : String)
  deriving DecidableEq, Repr

/-- The package variable `defaultRes = make(map[string]interface{})`; nothing in the
controller ever assigns into it. -/
def defaultRes : Data := Data.map []

/-- The `res` map that is marshalled as the JSON response body. `message` is absent
from the success envelope. -/
structure Envelope where
  status : String
  message : Option String
  data : Data
  deriving DecidableEq, Repr

/-! ## Requests -/

/-- The fields of `net/url.URL` that the HTTP server fills in for the target of a
request, in origin form (`/path?query`) or in absolute form
(`scheme://host/path?query`, without user information). `Path` is the decoded path and
`RawPath` the path as it was received when that is not the default encoding of `Path`.
Strings are valid UTF-8. -/
structure URL where
  Scheme : String
  Host : String
  Path : String
  RawPath : String
  ForceQuery : Bool
  RawQuery : String
  deriving DecidableEq, Repr

/-- The UTF-8 bytes of one character. -/
def utf8Bytes (c : Char) : List Nat :=
  let n := c.toNat
  if n < 0x80 then [n]
  else if n < 0x800 then [0xC0 + n / 64, 0x80 + n % 64]
  else if n < 0x10000 then [0xE0 + n / 4096, 0x80 + n / 64 % 64, 0x80 + n % 64]
  else [0xF0 + n / 262144, 0x80 + n / 4096 % 64, 0x80 + n / 64 % 64, 0x80 + n % 64]

/-- The bytes of a Go string. -/
def goBytes : List Char → List Nat
  | [] => []
  | c :: rest => utf8Bytes c ++ goBytes rest

/-- The code points of a string. -/
def runes (s : String) : List Nat := s.data.map Char.toNat

/-- The two modes of `net/url` escaping that `String()` applies to the fields above. -/
inductive encoding where
  | encodePath
  | encodeHost
  deriving DecidableEq, Repr

/-- The function `shouldEscape` of `net/url` for a byte `c`: letters, digits and
`-_.~` are never escaped, the host keeps its sub-delimiters, the path keeps every
reserved character but `?`, and every other byte is escaped. -/
def shouldEscape (c : Nat) (mode : encoding) : Bool :=
  if (97 ≤ c ∧ c ≤ 122) ∨ (65 ≤ c ∧ c ≤ 90) ∨ (48 ≤ c ∧ c ≤ 57) then false
  else if mode = encoding.encodeHost ∧ c ∈ runes "!$&\x27()*+,;=:[]<>\x22" then false
  else if c ∈ runes "-_.~" then false
  else if c ∈ runes "$&+,/:;=?@" then
    (match mode with
      | encoding.encodePath => decide (c = 63)
      | encoding.encodeHost => true)
  else true

/-- The digit `"0123456789ABCDEF"[n]`. -/
def upperhex (n : Nat) : Char :=
  if n < 10 then Char.ofNat (48 + n) else Char.ofNat (55 + n)

def escapeBytes : List Nat → encoding → List Char
  | [], _ => []
  | c :: rest, mode =>
    if shouldEscape c mode then
      '%' :: upperhex (c / 16) :: upperhex (c % 16) :: escapeBytes rest mode
    else Char.ofNat c :: escapeBytes rest mode

/-- The function `escape` of `net/url`: every byte that `shouldEscape` names becomes
`%XX`. -/
def escape (s : String) (mode : encoding) : String :=
  String.mk (escapeBytes (goBytes s.data) mode)

def ishex (c : Nat) : Bool :=
  (48 ≤ c && c ≤ 57) || (97 ≤ c && c ≤ 102) || (65 ≤ c && c ≤ 70)

def unhex (c : Nat) : Nat :=
  if 48 ≤ c ∧ c ≤ 57 then c - 48
  else if 97 ≤ c ∧ c ≤ 102 then c - 97 + 10
  else if 65 ≤ c ∧ c ≤ 70 then c - 65 + 10
  else 0

/-- The function `unescape` of `net/url` in path mode, on bytes: `%XX` becomes the byte
`XX`, a `%` that is not followed by two hex digits is an error. -/
def unescape : List Nat → Option (List Nat)
  | [] => some []
  | c :: rest =>
    if c = 37 then
      match rest with
      | a :: b :: tail =>
        if ishex a ∧ ishex b then
          (match unescape tail with
            | some t => some ((unhex a * 16 + unhex b) :: t)
            | none => none)
        else none
      | _ => none
    else
      match unescape rest with
      | some t => some (c :: t)
      | none => none

/-- The function `validEncoded` of `net/url`. -/
def validEncoded : List Nat → encoding → Bool
  | [], _ => true
  | c :: rest, mode =>
    if c ∈ runes "!$&\x27()*+,;=:@[]%" then validEncoded rest mode
    else if shouldEscape c mode then false
    else validEncoded rest mode

/-- The method `(*URL).EscapedPath()`: `RawPath` when it is a valid encoding of `Path`,
otherwise the default encoding of `Path`. -/
def URL.EscapedPath (u : URL) : String :=
  if u.RawPath ≠ "" ∧ validEncoded (goBytes u.RawPath.data) encoding.encodePath = true ∧
      unescape (goBytes u.RawPath.data) = some (goBytes u.Path.data) then
    u.RawPath
  else if u.Path = "*" then "*"
  else escape u.Path encoding.encodePath

/-- Whether a colon comes before the first slash of a path. -/
def firstSegmentHasColon : List Char → Bool
  | [] => false
  | c :: rest =>
    if c = '/' then false else if c = ':' then true else firstSegmentHasColon rest

/-- The method `(*URL).String()` for the fields above: scheme, `//` and host when there
is a scheme or a host, the escaped path, and `?` with the raw query when there is a
query or `ForceQuery` is set. -/
def URL.render (u : URL) : String :=
  let buf := if u.Scheme ≠ "" then u.Scheme ++ ":" else ""
  let buf :=
    if u.Scheme ≠ "" ∨ u.Host ≠ "" then
      let buf := if u.Host ≠ "" ∨ u.Path ≠ "" then buf ++ "//" else buf
      if u.Host ≠ "" then buf ++ escape u.Host encoding.encodeHost else buf
    else buf
  let path := u.EscapedPath
  let buf :=
    if path ≠ "" ∧ path.data.head? ≠ some '/' ∧ u.Host ≠ "" then buf ++ "/" else buf
  let buf := if buf = "" ∧ firstSegmentHasColon path.data = true then buf ++ "./" else buf
  let buf := buf ++ path
  if u.ForceQuery = true ∨ u.RawQuery ≠ "" then buf ++ "?" ++ u.RawQuery else buf

/-- The Go type `url.Values`, a `map[string][]string`. -/
abbrev Values := List (String × List String)

/-- The method `Values.Get`: the first value associated with the key, `""` when there
is none. -/
def Values.Get : Values → String → String
  | [], _ => ""
  | (k, vs) :: rest, key =>
    if k = key then (match vs with | [] => "" | v :: _ => v) else Values.Get rest key

/-- A JSON value as the decoder of a flat struct sees it. `int` is a number written as
a plain integer, `float` any other number, kept as its literal text. -/
inductive JVal where
  | null
  | bool (b : Bool)
  | int (n : Int)
  | float (literal : String)
  | str (s : String)
  | array
  | object
  deriving DecidableEq, Repr

/-- A request body as `json.NewDecoder(body).Decode` reads it into a struct: either no
JSON object can be read at all (syntax error, empty body, a value that is neither an
object nor `null`), or the members of the object in the order in which they are
written. The body `null` leaves the struct as it is, like an object without members. -/
inductive Body where
  | invalid (err : String)
  | object (members : List (String × JVal))
  deriving DecidableEq, Repr

/-- The `*http.Request` as far as the controller looks at it. `Header` holds the
request headers, `Vars` the route variables of `mux.Vars`, `Context` the key/value
pairs of the request context, most recent first. -/
structure Request where
  URL : URL
  Header : StrMap
  Body : Body
  Vars : StrMap
  Context : List (String × String)
  deriving DecidableEq, Repr

/-- The call `r.Header.Get(key)`: `""` when the header is missing. -/
def Request.HeaderGet (r : Request) (key : String) : String :=
  (StrMap.get? r.Header key).getD ""

/-- The read `mux.Vars(r)[key]`: the zero value `""` when the variable is missing. -/
def Request.Var (r : Request) (key : String) : String :=
  (StrMap.get? r.Vars key).getD ""

/-- The call `context.WithValue(ctx, key, val)`: the new pair shadows older ones. -/
def WithValue (ctx : List (String × String)) (key val : String) : List (String × String) :=
  (key, val) :: ctx

/-- The call `ctx.Value(key)`. -/
def ContextValue : List (String × String) → String → Option String
  | [], _ => none
  | (k, v) :: rest, key => if k = key then some v else ContextValue rest key

/-- The call `r.WithContext(ctx)`: a copy of the request with its context replaced. -/
def Request.WithContext (r : Request) (ctx : List (String × String)) : Request :=
  { r with Context := ctx }

/-! ## Effects -/

/-- One field error of `validator.ValidationErrors`. -/
structure FieldError where
  Namespace : String
  Field : String
  Tag : String
  deriving DecidableEq, Repr

/-- A call that the controller makes into a collaborator, with its arguments. -/
inductive Call where
  | validateRequest (b : User)
  | CreateUser (u : User)
  | GetUserByEmail (email : String) (isAdmin : Bool)
  | GetUserByID (id : String) (isAdmin : Bool)
  | UpdateUserByID (id : String) (u : User)
  | DeleteUserByID (u : User)
  | GetAllUsers (isAdmin : Bool)
  | ComparePasswords (hashed : String) (plain : String)
  | GenerateJWTToken (u : User)
  | VerifyJWTToken (token : String) (isAdmin : Bool)
  deriving DecidableEq, Repr

/-- The calls that change the user store. -/
def Call.mutates : Call → Bool
  | Call.CreateUser _ => true
  | Call.UpdateUserByID _ _ => true
  | Call.DeleteUserByID _ => true
  | _ => false

/-- Everything a controller function can change: the response writer (headers, status
line, bodies written), the diagnostic log, the calls made into collaborators and the
requests handed to the next handler. -/
structure World where
  header : StrMap
  status : Option Nat
  body : List Envelope
  log : List String
  calls : List Call
  forwarded : List Request
  deriving DecidableEq, Repr

/-- A fresh response writer and empty records. -/
def World.init : World :=
  { header := [], status := none, body := [], log := [], calls := [], forwarded := [] }

/-- The collaborators of the controller. A Go result pair `(value, err)` is an
`Except`: `err != nil` is `Except.error` carrying `err.Error()`. -/
structure Env where
  /-- The parser behind `request.URL.Query()`, applied to the raw query. -/
  ParseQuery : String → Values
  GetDefaultUser : User
  /-- The call `validator.New().Struct(b)` with the rules declared on `models.User`:
  the field errors, empty when the returned error is nil. -/
  Struct : User → List FieldError
  CreateUser : User → Except String Data
  GetUserByEmail : String → Bool → Except String User
  GetUserByID : String → Bool → Except String User
  UpdateUserByID : String → User → Except String Data
  DeleteUserByID : User → Except String Data
  GetAllUsers : Bool → Except String Data
  ComparePasswords : String → String → Bool
  GenerateJWTToken : User → Except String String
  VerifyJWTToken : String → Bool → Bool × Claim

/-- Record a call. -/
def World.call (w : World) (c : Call) : World :=
  { w with calls := w.calls ++ [c] }

/-- The call `request.URL.Query().Get(key)`. -/
def queryGet (env : Env) (request : Request) (key : String) : String :=
  Values.Get (env.ParseQuery request.URL.RawQuery) key

/-! ## controllers/admin.go: responses -/

/-- The method `ResponseWriter.WriteHeader`: only the first status line counts. -/
def World.WriteHeader (w : World) (status : Nat) : World :=
  match w.status with
  | some _ => w
  | none => { w with status := some status }

/-- The method `ResponseWriter.Write`: writes the implicit status 200 first when no
status line has been written. -/
def World.Write (w : World) (e : Envelope) : World :=
  let w1 := w.WriteHeader 200
  { w1 with body := w1.body ++ [e] }

def SendErrorResponse (r : World) (status : Nat) (message : String) (data : Data) : World :=
  let res : Envelope := { status := "error", message := some message, data := data }
  let r := { r with header := StrMap.set r.header "content-type" "application/json" }
  let r := r.WriteHeader status
  let r := r.Write res
  if status = StatusInternalServerError then
    { r with log := r.log ++ [message] }
  else
    r

def SendSuccessResponse (r : World) (result : Data) : World :=
  let res : Envelope := { status := "success", message := none, data := result }
  let r := { r with header := StrMap.set r.header "content-type" "application/json" }
  r.Write res

def contains : List String → String → Bool
  | [], _ => false
  | a :: rest, str => if a = str then true else contains rest str

/-! ## controllers/admin.go: the authentication middleware -/

/-- The call `next.ServeHTTP(w, r)`: the hand-over is recorded, then the next handler
runs. -/
def ServeHTTP (next : Request → World → World) (w : World) (r : Request) : World :=
  next r { w with forwarded := w.forwarded ++ [r] }

def AdminAuthenticationMiddleware (env : Env) (next : Request → World → World)
    (r : Request) (w : World) : World :=
  let unauthenticated := ["/admin/login"]
  let url := r.URL.render
  if contains unauthenticated url then
    ServeHTTP next w r
  else
    let token := r.HeaderGet "Authorization"
    if token = "" then
      SendErrorResponse w StatusForbidden constants.AccessDenied defaultRes
    else
      let w := w.call (Call.VerifyJWTToken token true)
      let (valid, claim) := env.VerifyJWTToken token true
      if valid then
        let ctx := WithValue r.Context "AdminID" claim.UserID
        ServeHTTP next w (r.WithContext ctx)
      else
        SendErrorResponse w StatusForbidden constants.AccessDenied defaultRes

/-! ## encoding/json: decoding a body onto a record -/

/-- Whether the rune `c` of a member name matches the ASCII character `f` of a field
name under the decoder's case folding: the same character, the same ASCII letter in
the other case, the long s (U+017F) for `s` or `S`, the Kelvin sign (U+212A) for `k` or
`K`. -/
def sameLetter (f c : Nat) : Bool :=
  c == f ||
  (decide (65 ≤ f ∧ f ≤ 90) && c == f + 32) ||
  (decide (97 ≤ f ∧ f ≤ 122) && c + 32 == f) ||
  ((f == 115 || f == 83) && c == 0x17F) ||
  ((f == 107 || f == 75) && c == 0x212A)

/-- The comparison `bytes.EqualFold` of `encoding/json` between a field name made of
ASCII characters (first argument) and a member name (second argument), rune by rune. -/
def equalFold : List Nat → List Nat → Bool
  | [], [] => true
  | f :: fs, c :: cs => sameLetter f c && equalFold fs cs
  | _, _ => false

/-- Whether the decoder stores the member called `key` in the struct field called
`field`. A field without a JSON tag goes by its Go name. -/
def matchesField (key field : String) : Bool :=
  equalFold (runes field) (runes key)

/-- Whether an integer fits the 64-bit Go type `int`. -/
def fitsInt (n : Int) : Bool :=
  decide (-(2 : Int) ^ 63 ≤ n ∧ n < (2 : Int) ^ 63)

/-- The name the decoder gives a JSON value in a type error for a field that is not
a number. -/
def JVal.kind : JVal → String
  | JVal.null => "null"
  | JVal.bool _ => "bool"
  | JVal.int _ => "number"
  | JVal.float _ => "number"
  | JVal.str _ => "string"
  | JVal.array => "array"
  | JVal.object => "object"

/-- The `json.UnmarshalTypeError` message. -/
def typeError (value field goType : String) : String :=
  "json: cannot unmarshal " ++ value ++ " into Go struct field " ++ field ++
    " of type " ++ goType

/-- Decoding one object member onto a user record. A member whose name matches no
field is skipped, `null` leaves the field as it is, a value of the wrong JSON type is
an error, as is a number that is not a plain integer or does not fit the integer
field, and otherwise the one field named by the member is overwritten. The JSON names
of the fields are taken to be the Go field names. -/
def User.setMember (u : User) (m : String × JVal) : Except String User :=
  if matchesField m.1 "ID" then
    match m.2 with
    | JVal.null => Except.ok u
    | JVal.str s => Except.ok { u with ID := s }
    | v => Except.error (typeError v.kind "User.ID" "string")
  else if matchesField m.1 "Email" then
    match m.2 with
    | JVal.null => Except.ok u
    | JVal.str s => Except.ok { u with Email := s }
    | v => Except.error (typeError v.kind "User.Email" "string")
  else if matchesField m.1 "Password" then
    match m.2 with
    | JVal.null => Except.ok u
    | JVal.str s => Except.ok { u with Password := s }
    | v => Except.error (typeError v.kind "User.Password" "string")
  else if matchesField m.1 "Rank" then
    match m.2 with
    | JVal.null => Except.ok u
    | JVal.int n =>
      if fitsInt n then Except.ok { u with Rank := n }
      else Except.error (typeError ("number " ++ toString n) "User.Rank" "int")
    | JVal.float literal =>
      Except.error (typeError ("number " ++ literal) "User.Rank" "int")
    | v => Except.error (typeError v.kind "User.Rank" "int")
  else if matchesField m.1 "IsAdmin" then
    match m.2 with
    | JVal.null => Except.ok u
    | JVal.bool b => Except.ok { u with IsAdmin := b }
    | v => Except.error (typeError v.kind "User.IsAdmin" "bool")
  else
    Except.ok u

/-- Decoding the members of an object in order; the first type error is the error
that `Decode` returns. -/
def User.setMembers : User → List (String × JVal) → Except String User
  | u, [] => Except.ok u
  | u, m :: rest =>
    match u.setMember m with
    | Except.error err => Except.error err
    | Except.ok u1 => User.setMembers u1 rest

/-- The call `json.NewDecoder(request.Body).Decode(&user)` for a user record that
already holds values: members of the body overwrite the fields they name, every other
field keeps its value. -/
def decodeUser (body : Body) (user : User) : Except String User :=
  match body with
  | Body.invalid err => Except.error err
  | Body.object members => user.setMembers members

/-- Decoding one object member onto a `loginBody`. -/
def loginBody.setMember (b : loginBody) (m : String × JVal) : Except String loginBody :=
  if matchesField m.1 "Email" then
    match m.2 with
    | JVal.null => Except.ok b
    | JVal.str s => Except.ok { b with Email := s }
    | v => Except.error (typeError v.kind "loginBody.Email" "string")
  else if matchesField m.1 "Password" then
    match m.2 with
    | JVal.null => Except.ok b
    | JVal.str s => Except.ok { b with Password := s }
    | v => Except.error (typeError v.kind "loginBody.Password" "string")
  else
    Except.ok b

def loginBody.setMembers : loginBody → List (String × JVal) → Except String loginBody
  | b, [] => Except.ok b
  | b, m :: rest =>
    match b.setMember m with
    | Except.error err => Except.error err
    | Except.ok b1 => loginBody.setMembers b1 rest

/-- The call `json.NewDecoder(request.Body).Decode(&body)` on the zero `loginBody`. -/
def decodeLogin (body : Body) : Except String loginBody :=
  match body with
  | Body.invalid err => Except.error err
  | Body.object members => loginBody.setMembers { Email := "", Password := "" } members

/-! ## controllers/admin.go: validation -/

/-- The call `e.Translate(trans)`. The controller registers one translation, for the
tag `email` (`"{0} must be a valid email"` applied to the field name); for every other
tag the validator falls back to the field error's own message. -/
def translate (e : FieldError) : String :=
  if e.Tag = "email" then
    e.Field ++ " must be a valid email"
  else
    "Key: \x27" ++ e.Namespace ++ "\x27 Error:Field validation for \x27" ++ e.Field ++
      "\x27 failed on the \x27" ++ e.Tag ++ "\x27 tag"

/-- The loop `for _, e := range err.(validator.ValidationErrors)` of `validateRequest`,
started on the map built so far. -/
def collectErrors : StrMap → List FieldError → StrMap
  | errors, [] => errors
  | errors, e :: rest => collectErrors (StrMap.set errors e.Tag (translate e)) rest

def validateRequest (env : Env) (b : User) : Bool × StrMap :=
  let err := env.Struct b
  if err ≠ [] then
    (false, collectErrors [] err)
  else
    (true, [])

/-! ## controllers/admin.go: the endpoints -/

def CreateUserEndpoint (env : Env) (request : Request) (response : World) : World :=
  let user := env.GetDefaultUser
  match decodeUser request.Body user with
  | Except.error err => SendErrorResponse response StatusInternalServerError err defaultRes
  | Except.ok user =>
    let user := { user with IsAdmin := decide (queryGet env request "isAdmin" = "true") }
    let response := response.call (Call.validateRequest user)
    let (ok, errors) := validateRequest env user
    if !ok then
      SendErrorResponse response StatusBadRequest constants.InvalidParams (Data.map errors)
    else
      let response := response.call (Call.CreateUser user)
      match env.CreateUser user with
      | Except.error err =>
        SendErrorResponse response StatusInternalServerError err defaultRes
      | Except.ok result => SendSuccessResponse response result

def AdminLoginEndpoint (env : Env) (request : Request) (response : World) : World :=
  match decodeLogin request.Body with
  | Except.error err => SendErrorResponse response StatusBadRequest err defaultRes
  | Except.ok body =>
    let response := response.call (Call.GetUserByEmail body.Email true)
    match env.GetUserByEmail body.Email true with
    | Except.error err =>
      SendErrorResponse response StatusInternalServerError err defaultRes
    | Except.ok user =>
      let response := response.call (Call.ComparePasswords user.Password body.Password)
      if env.ComparePasswords user.Password body.Password != true then
        SendErrorResponse response StatusUnauthorized constants.IncorrectCredentials defaultRes
      else
        let response := response.call (Call.GenerateJWTToken user)
        match env.GenerateJWTToken user with
        | Except.error err =>
          SendErrorResponse response StatusInternalServerError err defaultRes
        | Except.ok token =>
          SendSuccessResponse response (Data.map (StrMap.set [] "token" token))

def UpdateUserEndpoint (env : Env) (request : Request) (response : World) : World :=
  let id := request.Var "id"
  let isAdmin := decide (queryGet env request "isAdmin" = "true")
  let response := response.call (Call.GetUserByID id isAdmin)
  match env.GetUserByID id isAdmin with
  | Except.error err => SendErrorResponse response StatusInternalServerError err defaultRes
  | Except.ok user =>
    match decodeUser request.Body user with
    | Except.error err =>
      SendErrorResponse response StatusInternalServerError err defaultRes
    | Except.ok user =>
      let response := response.call (Call.UpdateUserByID id user)
      match env.UpdateUserByID id user with
      | Except.error err =>
        SendErrorResponse response StatusInternalServerError err defaultRes
      | Except.ok result => SendSuccessResponse response result

def DeleteUserEndpoint (env : Env) (request : Request) (response : World) : World :=
  let id := request.Var "id"
  let isAdmin := decide (queryGet env request "isAdmin" = "true")
  let response := response.call (Call.GetUserByID id isAdmin)
  match env.GetUserByID id isAdmin with
  | Except.error err => SendErrorResponse response StatusInternalServerError err defaultRes
  | Except.ok user =>
    let response := response.call (Call.DeleteUserByID user)
    match env.DeleteUserByID user with
    | Except.error err =>
      SendErrorResponse response StatusInternalServerError err defaultRes
    | Except.ok result => SendSuccessResponse response result

def GetUsersEndpoint (env : Env) (request : Request) (response : World) : World :=
  let isAdmin := decide (queryGet env request "isAdmin" = "true")
  let response := response.call (Call.GetAllUsers isAdmin)
  match env.GetAllUsers isAdmin with
  | Except.error err => SendErrorResponse response StatusInternalServerError err defaultRes
  | Except.ok results => SendSuccessResponse response results

def GetUserEndpoint (env : Env) (request : Request) (response : World) : World :=
  let id := request.Var "id"
  let isAdmin := decide (queryGet env request "isAdmin" = "true")
  let response := response.call (Call.GetUserByID id isAdmin)
  match env.GetUserByID id isAdmin with
  | Except.error err => SendErrorResponse response StatusInternalServerError err defaultRes
  | Except.ok user => SendSuccessResponse response (Data.user user)

/-! ## Sample collaborators -/

def sampleAdmin : User :=
  { ID := "u1", Email := "root@mrkt.io", Password := "hash(secret123)", Rank := 3,
    IsAdmin := true }

/-- A sample instance of the collaborators: a store holding the single admin
`sampleAdmin`. In this sample a lookup that finds no record returns an error with the
message of `constants.ResourceNotFound`; the embedded files do not show how the
`handlers` package itself reports a missing record. Tokens are plain strings naming the
audience and the subject, and a hash is the text `hash(..)` around the password. -/
def sampleEnv : Env :=
  { ParseQuery := fun raw => if raw = "isAdmin=true" then [("isAdmin", ["true"])] else []
    GetDefaultUser := { ID := "", Email := "", Password := "", Rank := 1, IsAdmin := false }
    Struct := fun u =>
      (if u.Email = "" then
        [{ Namespace := "User.Email", Field := "Email", Tag := "required" }] else []) ++
      (if u.Password = "" then
        [{ Namespace := "User.Password", Field := "Password", Tag := "required" }] else [])
    CreateUser := fun u => Except.ok (Data.user { u with ID := "u2" })
    GetUserByEmail := fun email isAdmin =>
      if email = sampleAdmin.Email ∧ isAdmin = true then Except.ok sampleAdmin
      else Except.error (constants.ResourceNotFound "user")
    GetUserByID := fun id isAdmin =>
      if id = sampleAdmin.ID ∧ isAdmin = true then Except.ok sampleAdmin
      else Except.error (constants.ResourceNotFound "user")
    UpdateUserByID := fun _ u => Except.ok (Data.user u)
    DeleteUserByID := fun _ => Except.ok (Data.result "1")
    GetAllUsers := fun isAdmin => Except.ok (Data.result (if isAdmin then "[u1]" else "[]"))
    ComparePasswords := fun hashed plain => decide (hashed = "hash(" ++ plain ++ ")")
    GenerateJWTToken := fun u => Except.ok ("admin-token:" ++ u.ID)
    VerifyJWTToken := fun token isAdmin =>
      if token = "admin-token:u1" ∧ isAdmin = true then
        (true, { UserID := "u1", IsAdmin := true })
      else (false, { UserID := "", IsAdmin := false }) }

def loginRequest : Request :=
  { URL := ⟨"", "", "/admin/login", "", false, ""⟩
    Header := []
    Body := Body.object [("Email", JVal.str "root@mrkt.io"), ("Password", JVal.str "secret123")]
    Vars := []
    Context := [] }

/-- A request for the login route that carries a query string and no token. -/
def loginWithQuery : Request :=
  { URL := ⟨"", "", "/admin/login", "", false, "next=home"⟩
    Header := []
    Body := Body.object [("Email", JVal.str "root@mrkt.io"), ("Password", JVal.str "secret123")]
    Vars := []
    Context := [] }

/-- A request for the user list with the token of `sampleAdmin`. -/
def listRequest : Request :=
  { URL := ⟨"", "", "/admin/users", "", false, "isAdmin=true"⟩
    Header := [("Authorization", "admin-token:u1")]
    Body := Body.invalid "EOF"
    Vars := []
    Context := [] }

/-- A request for the user list with a token that does not verify. -/
def forgedRequest : Request :=
  { listRequest with Header := [("Authorization", "user-token:u7")] }

/-! ## Specification-side definitions and sample requests -/

/-- The record that `CreateUserEndpoint` validates and persists: the decoded body with
the admin flag taken from the query parameter `isAdmin`. -/
def createRecord (env : Env) (request : Request) (decoded : User) : User :=
  { decoded with IsAdmin := decide (queryGet env request "isAdmin" = "true") }

/-- A create request without the `isAdmin` query parameter whose body asks for the
admin flag. -/
def escalatingCreate : Request :=
  { URL := ⟨"", "", "/admin/users", "", false, ""⟩
    Header := []
    Body := Body.object [("Email", JVal.str "a@b.com"), ("Password", JVal.str "secret123"),
      ("IsAdmin", JVal.bool true)]
    Vars := []
    Context := [] }

/-- The same create request without the flag in the body. -/
def plainCreate : Request :=
  { escalatingCreate with
    Body := Body.object [("Email", JVal.str "a@b.com"), ("Password", JVal.str "secret123")] }

/-- A create request whose body names no field. -/
def blankCreate : Request :=
  { escalatingCreate with Body := Body.object [] }

/-- The record with neither an email nor a password. -/
def blankUser : User :=
  { ID := "", Email := "", Password := "", Rank := 1, IsAdmin := false }

/-- A login for an email that no record has. -/
def unknownEmailLogin : Request :=
  { loginRequest with
    Body := Body.object [("Email", JVal.str "nobody@mrkt.io"),
      ("Password", JVal.str "secret123")] }

/-- A login for the email of `sampleAdmin` with another password. -/
def wrongPasswordLogin : Request :=
  { loginRequest with
    Body := Body.object [("Email", JVal.str "root@mrkt.io"), ("Password", JVal.str "guess")] }

/-- A delete request for an id that no record has. -/
def ghostDelete : Request :=
  { URL := ⟨"", "", "/admin/users/ghost", "", false, "isAdmin=true"⟩
    Header := [("Authorization", "admin-token:u1")]
    Body := Body.invalid "EOF"
    Vars := [("id", "ghost")]
    Context := [("AdminID", "u1")] }

/-- The letter that a rune stands for when case is ignored. -/
def lowerRune (c : Nat) : Nat :=
  if 65 ≤ c ∧ c ≤ 90 then c + 32
  else if c = 0x17F then 115
  else if c = 0x212A then 107
  else c

/-- A name with the case of its letters ignored. -/
def caseless (s : String) : List Nat := (runes s).map lowerRune

/-- The string that a body supplies for the field called `name`: the value of the last
member so called, case ignored, that holds a string, if there is one. -/
def lastStr : List (String × JVal) → String → Option String
  | [], _ => none
  | m :: rest, name =>
    match lastStr rest name with
    | some s => some s
    | none =>
      if caseless m.1 = caseless name then
        (match m.2 with
          | JVal.str s => some s
          | _ => none)
      else none

/-- The integer that a body supplies for the field called `name`. -/
def lastNum : List (String × JVal) → String → Option Int
  | [], _ => none
  | m :: rest, name =>
    match lastNum rest name with
    | some n => some n
    | none =>
      if caseless m.1 = caseless name then
        (match m.2 with
          | JVal.int n => some n
          | _ => none)
      else none

/-- The boolean that a body supplies for the field called `name`. -/
def lastBool : List (String × JVal) → String → Option Bool
  | [], _ => none
  | m :: rest, name =>
    match lastBool rest name with
    | some b => some b
    | none =>
      if caseless m.1 = caseless name then
        (match m.2 with
          | JVal.bool b => some b
          | _ => none)
      else none

/-- The partial merge in the words of the specification: every field for which the body
supplies a value takes that value, every other field retains its prior value. -/
def partialMerge (stored : User) (members : List (String × JVal)) : User :=
  { ID := (lastStr members "ID").getD stored.ID
    Email := (lastStr members "Email").getD stored.Email
    Password := (lastStr members "Password").getD stored.Password
    Rank := (lastNum members "Rank").getD stored.Rank
    IsAdmin := (lastBool members "IsAdmin").getD stored.IsAdmin }

/-- An update of the email of `sampleAdmin`. -/
def emailUpdate : Request :=
  { URL := ⟨"", "", "/admin/users/u1", "", false, "isAdmin=true"⟩
    Header := [("Authorization", "admin-token:u1")]
    Body := Body.object [("email", JVal.str "new@mrkt.io")]
    Vars := [("id", "u1")]
    Context := [("AdminID", "u1")] }

/-- An update for an id that no record has. -/
def ghostUpdate : Request :=
  { emailUpdate with Vars := [("id", "ghost")] }

/-- An update of `sampleAdmin` whose body gives a string for the rank. -/
def mistypedUpdate : Request :=
  { emailUpdate with Body := Body.object [("rank", JVal.str "high")] }

/-- An update of `sampleAdmin` whose body gives a rank that no `int` holds. -/
def overflowUpdate : Request :=
  { emailUpdate with Body := Body.object [("rank", JVal.int 9223372036854775808)] }

/-- An update of `sampleAdmin` whose body spells the password member with long s. -/
def longEssUpdate : Request :=
  { emailUpdate with Body := Body.object [("paſſword", JVal.str "hash(other)")] }

/-- A login whose body is cut off. -/
def truncatedLogin : Request :=
  { loginRequest with Body := Body.invalid "unexpected EOF" }

/-- A create request whose body gives a number for the email. -/
def mistypedCreate : Request :=
  { escalatingCreate with Body := Body.object [("Email", JVal.int 7)] }

/-! ## Lemmas on the response writer -/

section Responses

variable (r : World) (status : Nat) (message : String) (data : Data)

theorem SendErrorResponse_status (h : r.status = none) :
    (SendErrorResponse r status message data).status = some status := by
  unfold SendErrorResponse World.Write World.WriteHeader
  split <;> simp [h]

theorem SendErrorResponse_body :
    (SendErrorResponse r status message data).body =
      r.body ++ [{ status := "error", message := some message, data := data }] := by
  unfold SendErrorResponse World.Write World.WriteHeader
  cases h : r.status <;> split <;> simp

theorem SendErrorResponse_log :
    (SendErrorResponse r status message data).log =
      if status = StatusInternalServerError then r.log ++ [message] else r.log := by
  unfold SendErrorResponse World.Write World.WriteHeader
  cases h : r.status <;> split <;> simp

theorem SendErrorResponse_calls :
    (SendErrorResponse r status message data).calls = r.calls := by
  unfold SendErrorResponse World.Write World.WriteHeader
  cases h : r.status <;> split <;> simp

theorem SendErrorResponse_forwarded :
    (SendErrorResponse r status message data).forwarded = r.forwarded := by
  unfold SendErrorResponse World.Write World.WriteHeader
  cases h : r.status <;> split <;> simp

theorem SendSuccessResponse_status (h : r.status = none) :
    (SendSuccessResponse r data).status = some 200 := by
  simp [SendSuccessResponse, World.Write, World.WriteHeader, h]

theorem SendSuccessResponse_body :
    (SendSuccessResponse r data).body =
      r.body ++ [{ status := "success", message := none, data := data }] := by
  unfold SendSuccessResponse World.Write World.WriteHeader
  cases h : r.status <;> simp

theorem SendSuccessResponse_log : (SendSuccessResponse r data).log = r.log := by
  unfold SendSuccessResponse World.Write World.WriteHeader
  cases h : r.status <;> simp

theorem SendSuccessResponse_calls : (SendSuccessResponse r data).calls = r.calls := by
  unfold SendSuccessResponse World.Write World.WriteHeader
  cases h : r.status <;> simp

end Responses

theorem call_status (w : World) (c : Call) : (w.call c).status = w.status := rfl
theorem call_body (w : World) (c : Call) : (w.call c).body = w.body := rfl
theorem call_log (w : World) (c : Call) : (w.call c).log = w.log := rfl
theorem call_header (w : World) (c : Call) : (w.call c).header = w.header := rfl
theorem call_forwarded (w : World) (c : Call) : (w.call c).forwarded = w.forwarded := rfl
theorem call_calls (w : World) (c : Call) : (w.call c).calls = w.calls ++ [c] := rfl

/-! ## The authentication middleware -/

/-- C1: the gate fails closed. For a request whose URL is not on the allow-list, when
the Authorization header is empty or `VerifyJWTToken(token, true)` reports
`valid = false`, the response is status 403 with the error envelope carrying
`constants.AccessDenied`, nothing is logged and the next handler is not invoked.
Conversely, if such a request reaches the next handler, then the header is non-empty
and verification with `requireAdmin = true` reported `valid = true`. -/
theorem gate_fails_closed (env : Env) (next : Request → World → World) (r : Request)
    (w : World) (hurl : contains ["/admin/login"] r.URL.render = false)
    (hw : w.status = none) :
    let out := AdminAuthenticationMiddleware env next r w
    let token := r.HeaderGet "Authorization"
    ((token = "" ∨ (env.VerifyJWTToken token true).1 = false) →
        out.status = some 403 ∧
        out.body = w.body ++ [{ status := "error", message := some constants.AccessDenied,
                                data := defaultRes }] ∧
        out.log = w.log ∧
        out.forwarded = w.forwarded) ∧
    (out.forwarded ≠ w.forwarded →
        token ≠ "" ∧ (env.VerifyJWTToken token true).1 = true) := by
  have deny : (r.HeaderGet "Authorization" = "" ∨
      (env.VerifyJWTToken (r.HeaderGet "Authorization") true).1 = false) →
      AdminAuthenticationMiddleware env next r w =
        SendErrorResponse w StatusForbidden constants.AccessDenied defaultRes ∨
      AdminAuthenticationMiddleware env next r w =
        SendErrorResponse (w.call (Call.VerifyJWTToken (r.HeaderGet "Authorization") true))
          StatusForbidden constants.AccessDenied defaultRes := by
    intro h
    unfold AdminAuthenticationMiddleware
    simp only [hurl]
    by_cases ht : r.HeaderGet "Authorization" = ""
    · left; simp [ht]
    · right
      rcases h with h | h
      · exact absurd h ht
      · simp [ht, h]
  have fields : (r.HeaderGet "Authorization" = "" ∨
      (env.VerifyJWTToken (r.HeaderGet "Authorization") true).1 = false) →
      (AdminAuthenticationMiddleware env next r w).status = some 403 ∧
      (AdminAuthenticationMiddleware env next r w).body =
        w.body ++ [{ status := "error", message := some constants.AccessDenied,
                     data := defaultRes }] ∧
      (AdminAuthenticationMiddleware env next r w).log = w.log ∧
      (AdminAuthenticationMiddleware env next r w).forwarded = w.forwarded := by
    intro h
    rcases deny h with e | e <;> rw [e]
    · refine ⟨SendErrorResponse_status _ _ _ _ hw, SendErrorResponse_body _ _ _ _, ?_,
        SendErrorResponse_forwarded _ _ _ _⟩
      simp [SendErrorResponse_log, StatusForbidden, StatusInternalServerError]
    · refine ⟨SendErrorResponse_status _ _ _ _ (by simpa [call_status] using hw),
        by simp [SendErrorResponse_body, call_body], ?_,
        by simp [SendErrorResponse_forwarded, call_forwarded]⟩
      simp [SendErrorResponse_log, StatusForbidden, StatusInternalServerError, call_log]
  refine ⟨fields, ?_⟩
  intro hfw
  by_contra hcon
  apply hfw
  have : r.HeaderGet "Authorization" = "" ∨
      (env.VerifyJWTToken (r.HeaderGet "Authorization") true).1 = false := by
    by_cases ht : r.HeaderGet "Authorization" = ""
    · exact Or.inl ht
    · right
      cases hv : (env.VerifyJWTToken (r.HeaderGet "Authorization") true).1
      · rfl
      · exact absurd ⟨ht, hv⟩ hcon
  exact (fields this).2.2.2

/-- Witness for C1: a token that does not verify is turned away with 403, and the list
request that does reach the next handler carries a token that verifies. -/
theorem gate_fails_closed_witness :
    ((AdminAuthenticationMiddleware sampleEnv (fun _ w => w) forgedRequest World.init).status
        = some 403 ∧
      (AdminAuthenticationMiddleware sampleEnv (fun _ w => w) forgedRequest
        World.init).forwarded = []) ∧
    (listRequest.HeaderGet "Authorization" ≠ "" ∧
      (sampleEnv.VerifyJWTToken (listRequest.HeaderGet "Authorization") true).1 = true) :=
  have h := (gate_fails_closed sampleEnv (fun _ w => w) forgedRequest World.init
    (by decide) (by decide)).1 (Or.inr (by decide))
  ⟨⟨h.1, h.2.2.2⟩,
   (gate_fails_closed sampleEnv (fun _ w => w) listRequest World.init
    (by decide) (by decide)).2 (by decide)⟩

/-- The allow-list test of the gate compares the rendered URL, query string included,
with `/admin/login`. -/
theorem allow_list_compares_whole_url (r : Request) :
    contains ["/admin/login"] r.URL.render = true ↔ r.URL.render = "/admin/login" := by
  simp [contains, eq_comm]

/-- A URL with a query part never renders as `/admin/login`, whatever its path. -/
theorem query_defeats_allow_list (u : URL) (h : u.ForceQuery = true ∨ u.RawQuery ≠ "") :
    u.render ≠ "/admin/login" := by
  intro e
  have hmem : '?' ∈ u.render.data := by
    unfold URL.render
    simp only [h, if_true]
    simp [String.data_append]
  rw [e] at hmem
  revert hmem
  decide

/-- C2, the code at a login request that carries a query string: the path is the
allow-listed `/admin/login`, yet the gate asks for a token and, finding none, answers
403 without invoking the next handler. The same request without the query string is
handed to the next handler. -/
theorem login_with_query_is_denied :
    loginWithQuery.URL.Path = "/admin/login" ∧
    contains ["/admin/login"] loginWithQuery.URL.Path = true ∧
    loginWithQuery.URL.render = "/admin/login?next=home" ∧
    (AdminAuthenticationMiddleware sampleEnv (fun _ w => w) loginWithQuery World.init).status
      = some 403 ∧
    (AdminAuthenticationMiddleware sampleEnv (fun _ w => w) loginWithQuery World.init).body
      = [{ status := "error", message := some constants.AccessDenied, data := defaultRes }] ∧
    (AdminAuthenticationMiddleware sampleEnv (fun _ w => w) loginWithQuery World.init).forwarded
      = [] ∧
    (AdminAuthenticationMiddleware sampleEnv (fun _ w => w) loginRequest World.init).forwarded
      = [loginRequest] := by
  decide

/-- C10: on successful verification the gate only augments the context. A request that
is not allow-listed, has a non-empty Authorization header and whose token verifies with
claim `claim` is handed to the next handler exactly once, with `AdminID` bound to
`claim.UserID` in its context and everything else as it came in; the gate writes no
response and no log entry. An allow-listed request is handed on unmodified and its
token is never verified. -/
theorem gate_only_augments_context (env : Env) (next : Request → World → World)
    (r : Request) (w : World) :
    let out := AdminAuthenticationMiddleware env next r w
    let token := r.HeaderGet "Authorization"
    (contains ["/admin/login"] r.URL.render = false → token ≠ "" →
      ∀ claim : Claim, env.VerifyJWTToken token true = (true, claim) →
        let r2 := r.WithContext (WithValue r.Context "AdminID" claim.UserID)
        out = next r2 { w with calls := w.calls ++ [Call.VerifyJWTToken token true]
                               forwarded := w.forwarded ++ [r2] } ∧
        ContextValue r2.Context "AdminID" = some claim.UserID ∧
        (∀ key, key ≠ "AdminID" → ContextValue r2.Context key = ContextValue r.Context key) ∧
        r2.URL = r.URL ∧ r2.Header = r.Header ∧ r2.Body = r.Body ∧ r2.Vars = r.Vars) ∧
    (contains ["/admin/login"] r.URL.render = true →
      out = next r { w with forwarded := w.forwarded ++ [r] }) := by
  refine ⟨?_, ?_⟩
  · intro hurl htok claim hver
    refine ⟨?_, ?_, ?_, rfl, rfl, rfl, rfl⟩
    · unfold AdminAuthenticationMiddleware
      simp only [hurl]
      simp [htok, hver, ServeHTTP, World.call]
    · simp [Request.WithContext, WithValue, ContextValue]
    · intro key hkey
      simp [Request.WithContext, WithValue, ContextValue, Ne.symm hkey]
  · intro hurl
    unfold AdminAuthenticationMiddleware
    simp [hurl, ServeHTTP]

/-- Witness for C10: the token of `sampleAdmin` verifies and the list request is handed
on with `AdminID` set; the login request is handed on as it is. -/
theorem gate_only_augments_context_witness :
    AdminAuthenticationMiddleware sampleEnv (fun _ w => w) listRequest World.init =
      { World.init with
        calls := [Call.VerifyJWTToken "admin-token:u1" true]
        forwarded := [{ listRequest with Context := [("AdminID", "u1")] }] } ∧
    AdminAuthenticationMiddleware sampleEnv (fun _ w => w) loginRequest World.init =
      { World.init with forwarded := [loginRequest] } :=
  have h := gate_only_augments_context sampleEnv (fun _ w => w)
  ⟨((h listRequest World.init).1 (by decide) (by decide)
      { UserID := "u1", IsAdmin := true } (by decide)).1,
   (h loginRequest World.init).2 (by decide)⟩

/-! ## CreateUserEndpoint -/

theorem CreateUserEndpoint_rejected (env : Env) (request : Request) (w : World)
    (decoded : User) (hdec : decodeUser request.Body env.GetDefaultUser = Except.ok decoded)
    (hval : (validateRequest env (createRecord env request decoded)).1 = false) :
    CreateUserEndpoint env request w =
      SendErrorResponse (w.call (Call.validateRequest (createRecord env request decoded)))
        StatusBadRequest constants.InvalidParams
        (Data.map (validateRequest env (createRecord env request decoded)).2) := by
  unfold CreateUserEndpoint
  simp only [hdec]
  unfold createRecord at hval
  simp [hval, createRecord]

theorem CreateUserEndpoint_accepted (env : Env) (request : Request) (w : World)
    (decoded : User) (hdec : decodeUser request.Body env.GetDefaultUser = Except.ok decoded)
    (hval : (validateRequest env (createRecord env request decoded)).1 = true) :
    CreateUserEndpoint env request w =
      match env.CreateUser (createRecord env request decoded) with
      | Except.error err =>
        SendErrorResponse
          ((w.call (Call.validateRequest (createRecord env request decoded))).call
            (Call.CreateUser (createRecord env request decoded)))
          StatusInternalServerError err defaultRes
      | Except.ok result =>
        SendSuccessResponse
          ((w.call (Call.validateRequest (createRecord env request decoded))).call
            (Call.CreateUser (createRecord env request decoded)))
          result := by
  unfold CreateUserEndpoint
  simp only [hdec]
  unfold createRecord at hval
  simp [hval, createRecord]

theorem CreateUserEndpoint_calls (env : Env) (request : Request) (w : World)
    (decoded : User) (hdec : decodeUser request.Body env.GetDefaultUser = Except.ok decoded) :
    (CreateUserEndpoint env request w).calls =
      w.calls ++ Call.validateRequest (createRecord env request decoded) ::
        (if (validateRequest env (createRecord env request decoded)).1 then
          [Call.CreateUser (createRecord env request decoded)] else []) := by
  cases hval : (validateRequest env (createRecord env request decoded)).1
  · rw [CreateUserEndpoint_rejected env request w decoded hdec hval]
    simp [SendErrorResponse_calls, call_calls]
  · rw [CreateUserEndpoint_accepted env request w decoded hdec hval]
    cases env.CreateUser (createRecord env request decoded) <;>
      simp [SendErrorResponse_calls, SendSuccessResponse_calls, call_calls]

/-- C3: in `CreateUserEndpoint` the admin flag of the validated and persisted record is
decided by the query parameter alone. When the body decodes, the record handed to
`validateRequest` and (if validation passes) to `handlers.CreateUser` is the decoded
body with `IsAdmin` set to whether the query parameter `isAdmin` is the string `true`;
and two requests with the same query string whose decoded bodies differ at most in the
admin flag lead to the same calls and the same response. -/
theorem create_admin_flag_from_query (env : Env) (r1 r2 : Request) (w : World)
    (u1 u2 : User)
    (h1 : decodeUser r1.Body env.GetDefaultUser = Except.ok u1)
    (h2 : decodeUser r2.Body env.GetDefaultUser = Except.ok u2)
    (hq : r1.URL.RawQuery = r2.URL.RawQuery)
    (hsame : u1.ID = u2.ID ∧ u1.Email = u2.Email ∧ u1.Password = u2.Password ∧
      u1.Rank = u2.Rank) :
    let flag := decide (Values.Get (env.ParseQuery r1.URL.RawQuery) "isAdmin" = "true")
    let record : User :=
      { ID := u1.ID, Email := u1.Email, Password := u1.Password, Rank := u1.Rank,
        IsAdmin := flag }
    (CreateUserEndpoint env r1 w).calls =
      w.calls ++ Call.validateRequest record ::
        (if (validateRequest env record).1 then [Call.CreateUser record] else []) ∧
    CreateUserEndpoint env r1 w = CreateUserEndpoint env r2 w := by
  have hrec : createRecord env r1 u1 = createRecord env r2 u2 := by
    obtain ⟨a, b, c, d⟩ := hsame
    simp [createRecord, queryGet, hq, a, b, c, d]
  refine ⟨?_, ?_⟩
  · have := CreateUserEndpoint_calls env r1 w u1 h1
    simpa [createRecord, queryGet] using this
  · cases hval : (validateRequest env (createRecord env r1 u1)).1
    · rw [CreateUserEndpoint_rejected env r1 w u1 h1 hval,
        CreateUserEndpoint_rejected env r2 w u2 h2 (hrec ▸ hval), hrec]
    · rw [CreateUserEndpoint_accepted env r1 w u1 h1 hval,
        CreateUserEndpoint_accepted env r2 w u2 h2 (hrec ▸ hval), hrec]

/-- Witness for C3: the admin flag in the body of `escalatingCreate` is discarded. -/
theorem create_admin_flag_from_query_witness :
    (CreateUserEndpoint sampleEnv escalatingCreate World.init).calls =
      [Call.validateRequest ⟨"", "a@b.com", "secret123", 1, false⟩,
       Call.CreateUser ⟨"", "a@b.com", "secret123", 1, false⟩] ∧
    CreateUserEndpoint sampleEnv escalatingCreate World.init =
      CreateUserEndpoint sampleEnv plainCreate World.init :=
  create_admin_flag_from_query sampleEnv escalatingCreate plainCreate World.init
    { ID := "", Email := "a@b.com", Password := "secret123", Rank := 1, IsAdmin := true }
    { ID := "", Email := "a@b.com", Password := "secret123", Rank := 1, IsAdmin := false }
    rfl rfl (by decide) (by decide)

/-- C6: in `CreateUserEndpoint` validation runs strictly before persistence. When the
body decodes and `validateRequest` rejects the record, `handlers.CreateUser` is not
called and the response is status 400 with the error envelope whose message is
`constants.InvalidParams` and whose data is the error map of `validateRequest`; when
`handlers.CreateUser` is called, it is called with the very record that was validated,
and `validateRequest` accepted that record. -/
theorem create_validates_before_persisting (env : Env) (request : Request) (w : World)
    (decoded : User)
    (hdec : decodeUser request.Body env.GetDefaultUser = Except.ok decoded)
    (hw : w.status = none) :
    let record := createRecord env request decoded
    let out := CreateUserEndpoint env request w
    ((validateRequest env record).1 = false →
      out.status = some 400 ∧
      out.body = w.body ++ [{ status := "error", message := some constants.InvalidParams,
                              data := Data.map (validateRequest env record).2 }] ∧
      out.log = w.log ∧
      out.calls = w.calls ++ [Call.validateRequest record]) ∧
    ((validateRequest env record).1 = true →
      out.calls = w.calls ++ [Call.validateRequest record, Call.CreateUser record]) ∧
    (∀ x, Call.CreateUser x ∈ out.calls → Call.CreateUser x ∉ w.calls →
      x = record ∧ (validateRequest env record).1 = true) := by
  have hcalls := CreateUserEndpoint_calls env request w decoded hdec
  refine ⟨?_, ?_, ?_⟩
  · intro hval
    refine ⟨?_, ?_, ?_, ?_⟩
    · rw [CreateUserEndpoint_rejected env request w decoded hdec hval]
      exact SendErrorResponse_status _ _ _ _ (by simpa [call_status] using hw)
    · rw [CreateUserEndpoint_rejected env request w decoded hdec hval]
      simp [SendErrorResponse_body, call_body]
    · rw [CreateUserEndpoint_rejected env request w decoded hdec hval]
      simp [SendErrorResponse_log, call_log, StatusBadRequest, StatusInternalServerError]
    · simpa [hval] using hcalls
  · intro hval
    simpa [hval] using hcalls
  · intro x hx hnot
    rw [hcalls] at hx
    cases hval : (validateRequest env (createRecord env request decoded)).1
    · simp [hval] at hx
      exact absurd hx hnot
    · simp [hval] at hx
      rcases hx with hx | hx
      · exact absurd hx hnot
      · exact ⟨hx, rfl⟩

/-- Witness for C6: a body that names no field is rejected with 400 and never reaches
`handlers.CreateUser`; a complete body is validated and then persisted. -/
theorem create_validates_before_persisting_witness :
    ((CreateUserEndpoint sampleEnv blankCreate World.init).status = some 400 ∧
      (CreateUserEndpoint sampleEnv blankCreate World.init).calls =
        [Call.validateRequest ⟨"", "", "", 1, false⟩]) ∧
    (CreateUserEndpoint sampleEnv plainCreate World.init).calls =
      [Call.validateRequest ⟨"", "a@b.com", "secret123", 1, false⟩,
       Call.CreateUser ⟨"", "a@b.com", "secret123", 1, false⟩] ∧
    ((⟨"", "a@b.com", "secret123", 1, false⟩ : User) =
        createRecord sampleEnv plainCreate ⟨"", "a@b.com", "secret123", 1, false⟩ ∧
      (validateRequest sampleEnv
        (createRecord sampleEnv plainCreate ⟨"", "a@b.com", "secret123", 1, false⟩)).1
          = true) :=
  have h := (create_validates_before_persisting sampleEnv blankCreate World.init
    { ID := "", Email := "", Password := "", Rank := 1, IsAdmin := false }
    rfl (by decide)).1 (by decide)
  have g := create_validates_before_persisting sampleEnv plainCreate World.init
    { ID := "", Email := "a@b.com", Password := "secret123", Rank := 1, IsAdmin := false }
    rfl (by decide)
  ⟨⟨h.1, h.2.2.2⟩, g.2.1 (by decide),
   g.2.2 ⟨"", "a@b.com", "secret123", 1, false⟩ (by decide) (by decide)⟩

/-! ## validateRequest -/

theorem StrMap.get?_set (m : StrMap) (k v key : String) :
    StrMap.get? (StrMap.set m k v) key = if k = key then some v else StrMap.get? m key := by
  induction m with
  | nil => simp [StrMap.set, StrMap.get?]
  | cons p rest ih =>
    obtain ⟨k1, v1⟩ := p
    by_cases h1 : k1 = k
    · subst h1
      by_cases h2 : k1 = key <;> simp [StrMap.set, StrMap.get?, h2]
    · by_cases h2 : k1 = key
      · subst h2
        simp [StrMap.set, StrMap.get?, h1, Ne.symm h1]
      · simp [StrMap.set, StrMap.get?, h1, h2, ih]

theorem collectErrors_keeps (t : String) (l : List FieldError) (m : StrMap)
    (h : ∀ x ∈ l, x.Tag ≠ t) :
    StrMap.get? (collectErrors m l) t = StrMap.get? m t := by
  induction l generalizing m with
  | nil => rfl
  | cons b l ih =>
    have hbt : b.Tag ≠ t := h b (List.mem_cons_self _ _)
    simp only [collectErrors]
    rw [ih _ (fun x hx => h x (List.mem_cons_of_mem _ hx)), StrMap.get?_set]
    simp [hbt]

/-- After the loop every tag among the field errors has an entry, and the entry holds
the message of some field error with that tag. -/
theorem collectErrors_covers (t : String) (errs : List FieldError) (m : StrMap)
    (h : ∃ x ∈ errs, x.Tag = t) :
    ∃ e2 ∈ errs, e2.Tag = t ∧
      StrMap.get? (collectErrors m errs) t = some (translate e2) := by
  induction errs generalizing m with
  | nil => obtain ⟨x, hx, _⟩ := h; cases hx
  | cons a rest ih =>
    by_cases hin : ∃ x ∈ rest, x.Tag = t
    · obtain ⟨e2, h2, ht, hg⟩ := ih (StrMap.set m a.Tag (translate a)) hin
      exact ⟨e2, List.mem_cons_of_mem _ h2, ht, by simpa [collectErrors] using hg⟩
    · have hrest : ∀ x ∈ rest, x.Tag ≠ t := fun x hx hxt => hin ⟨x, hx, hxt⟩
      have hat : a.Tag = t := by
        obtain ⟨x, hx, hxt⟩ := h
        rcases List.mem_cons.mp hx with hxa | hxr
        · exact hxa ▸ hxt
        · exact absurd hxt (hrest x hxr)
      refine ⟨a, List.mem_cons_self _ _, hat, ?_⟩
      simp only [collectErrors]
      rw [collectErrors_keeps t rest _ hrest, StrMap.get?_set]
      simp [hat]

/-- What `validateRequest` does report: `ok` is false exactly when the validator returns
a field error, an accepted record has an empty error map, and every violated rule has
an entry holding the message of a field error that violated it. -/
theorem validateRequest_reports_each_rule (env : Env) (b : User) :
    ((validateRequest env b).1 = false ↔ env.Struct b ≠ []) ∧
    ((validateRequest env b).1 = true → (validateRequest env b).2 = []) ∧
    (∀ e ∈ env.Struct b, ∃ e2 ∈ env.Struct b, e2.Tag = e.Tag ∧
      StrMap.get? (validateRequest env b).2 e.Tag = some (translate e2)) := by
  unfold validateRequest
  by_cases h : env.Struct b = []
  · simp [h]
  · simp only [h, ne_eq, not_false_eq_true, if_true, true_iff, true_and]
    refine ⟨by simp, ?_⟩
    intro e he
    exact collectErrors_covers e.Tag (env.Struct b) [] ⟨e, he, rfl⟩

/-- C5, the code at a record on which two different fields violate the same rule: the
validator returns the pair Email/required and the pair Password/required, and the
returned map has the single entry `required`, holding the message for Password; the
message for Email is nowhere in the map. -/
theorem same_rule_failures_share_one_entry :
    sampleEnv.Struct blankUser =
      [{ Namespace := "User.Email", Field := "Email", Tag := "required" },
       { Namespace := "User.Password", Field := "Password", Tag := "required" }] ∧
    (validateRequest sampleEnv blankUser).1 = false ∧
    (validateRequest sampleEnv blankUser).2 =
      [("required", translate
          { Namespace := "User.Password", Field := "Password", Tag := "required" })] ∧
    (∀ entry ∈ (validateRequest sampleEnv blankUser).2,
      entry.2 ≠ translate { Namespace := "User.Email", Field := "Email", Tag := "required" }) := by
  decide

/-! ## AdminLoginEndpoint -/

theorem AdminLoginEndpoint_lookup_error (env : Env) (request : Request) (w : World)
    (body : loginBody) (err : String)
    (hdec : decodeLogin request.Body = Except.ok body)
    (hlook : env.GetUserByEmail body.Email true = Except.error err) :
    AdminLoginEndpoint env request w =
      SendErrorResponse (w.call (Call.GetUserByEmail body.Email true))
        StatusInternalServerError err defaultRes := by
  unfold AdminLoginEndpoint
  simp only [hdec, hlook]

theorem AdminLoginEndpoint_mismatch (env : Env) (request : Request) (w : World)
    (body : loginBody) (user : User)
    (hdec : decodeLogin request.Body = Except.ok body)
    (hlook : env.GetUserByEmail body.Email true = Except.ok user)
    (hcmp : env.ComparePasswords user.Password body.Password = false) :
    AdminLoginEndpoint env request w =
      SendErrorResponse
        ((w.call (Call.GetUserByEmail body.Email true)).call
          (Call.ComparePasswords user.Password body.Password))
        StatusUnauthorized constants.IncorrectCredentials defaultRes := by
  unfold AdminLoginEndpoint
  simp [hdec, hlook, hcmp]

/-- The two failure paths of `AdminLoginEndpoint` after a well-formed body. Whenever
the lookup by email (admin audience) returns a record, whatever record it is, whose
stored hash does not match the submitted password, the response is status 401 with the
error envelope carrying `constants.IncorrectCredentials` and empty data, and nothing is
logged; whenever the lookup returns an error, the response is status 500 with the
error envelope carrying that error, and the error is logged. Which of the two paths a
missing record takes is decided inside `handlers.GetUserByEmail`. -/
theorem login_failure_responses (env : Env) (request : Request) (w : World)
    (body : loginBody) (hdec : decodeLogin request.Body = Except.ok body)
    (hw : w.status = none) :
    let out := AdminLoginEndpoint env request w
    (∀ user, env.GetUserByEmail body.Email true = Except.ok user →
      env.ComparePasswords user.Password body.Password = false →
        out.status = some 401 ∧
        out.body = w.body ++ [{ status := "error",
                                message := some constants.IncorrectCredentials,
                                data := defaultRes }] ∧
        out.log = w.log) ∧
    (∀ err, env.GetUserByEmail body.Email true = Except.error err →
        out.status = some 500 ∧
        out.body = w.body ++ [{ status := "error", message := some err,
                                data := defaultRes }] ∧
        out.log = w.log ++ [err]) := by
  refine ⟨?_, ?_⟩
  · intro user hlook hcmp
    simp only [AdminLoginEndpoint_mismatch env request w body user hdec hlook hcmp]
    refine ⟨SendErrorResponse_status _ _ _ _ (by simpa [call_status] using hw), ?_, ?_⟩
    · simp [SendErrorResponse_body, call_body]
    · simp [SendErrorResponse_log, call_log, StatusUnauthorized, StatusInternalServerError]
  · intro err hlook
    simp only [AdminLoginEndpoint_lookup_error env request w body err hdec hlook]
    refine ⟨SendErrorResponse_status _ _ _ _ (by simpa [call_status] using hw), ?_, ?_⟩
    · simp [SendErrorResponse_body, call_body]
    · simp [SendErrorResponse_log, call_log]

/-- The two failure paths on the sample store: a wrong password for `sampleAdmin`, and
an email for which the sample lookup returns an error. -/
theorem login_failure_responses_witness :
    (AdminLoginEndpoint sampleEnv wrongPasswordLogin World.init).status = some 401 ∧
    (AdminLoginEndpoint sampleEnv wrongPasswordLogin World.init).log = [] ∧
    (AdminLoginEndpoint sampleEnv unknownEmailLogin World.init).log =
      ["This user was not found."] :=
  have h1 := (login_failure_responses sampleEnv wrongPasswordLogin World.init
    { Email := "root@mrkt.io", Password := "guess" } rfl (by decide)).1 sampleAdmin rfl
    (by decide)
  have h2 := (login_failure_responses sampleEnv unknownEmailLogin World.init
    { Email := "nobody@mrkt.io", Password := "secret123" } rfl (by decide)).2
    "This user was not found." rfl
  ⟨h1.1, h1.2.2, h2.2.2⟩

/-! ## DeleteUserEndpoint -/

/-- Counterexample to C7 as stated: the lookup for the id `ghost` reports not-found, and
the response is status 500, logged as a server fault. -/
theorem delete_unknown_id_is_server_fault :
    sampleEnv.GetUserByID "ghost" true =
      Except.error (constants.ResourceNotFound "user") ∧
    (DeleteUserEndpoint sampleEnv ghostDelete World.init).status = some 500 ∧
    (DeleteUserEndpoint sampleEnv ghostDelete World.init).log =
      ["This user was not found."] :=
  ⟨rfl, by decide⟩

/-- Whatever the lookup returns, `DeleteUserEndpoint` either answers with status 500 and
logs, or calls `handlers.DeleteUserByID`: it has no third outcome. -/
theorem delete_faults_or_deletes (env : Env) (request : Request) :
    ((DeleteUserEndpoint env request World.init).status = some 500 ∧
      (DeleteUserEndpoint env request World.init).log ≠ []) ∨
    ∃ user, Call.DeleteUserByID user ∈ (DeleteUserEndpoint env request World.init).calls := by
  unfold DeleteUserEndpoint
  cases hlook : env.GetUserByID (request.Var "id")
      (decide (queryGet env request "isAdmin" = "true")) with
  | error err =>
    left
    simp only [hlook]
    refine ⟨SendErrorResponse_status _ _ _ _ rfl, ?_⟩
    simp [SendErrorResponse_log]
  | ok user =>
    right
    refine ⟨user, ?_⟩
    simp only [hlook]
    cases hdel : env.DeleteUserByID user <;>
      simp [SendErrorResponse_calls, SendSuccessResponse_calls, call_calls]

/-- C7 as amended: when the audience-scoped lookup `handlers.GetUserByID` returns an
error for the id, not-found included, `DeleteUserEndpoint` answers with the error
envelope carrying the text of that error under status 500, logs it as a server fault,
and never calls `handlers.DeleteUserByID`. -/
theorem delete_lookup_error (env : Env) (request : Request) (w : World) (err : String)
    (hw : w.status = none)
    (hlook : env.GetUserByID (request.Var "id")
      (decide (Values.Get (env.ParseQuery request.URL.RawQuery) "isAdmin" = "true")) =
        Except.error err) :
    let out := DeleteUserEndpoint env request w
    out.status = some 500 ∧
    out.body = w.body ++ [{ status := "error", message := some err, data := defaultRes }] ∧
    out.log = w.log ++ [err] ∧
    out.calls = w.calls ++ [Call.GetUserByID (request.Var "id")
      (decide (Values.Get (env.ParseQuery request.URL.RawQuery) "isAdmin" = "true"))] ∧
    (∀ user, Call.DeleteUserByID user ∈ out.calls → Call.DeleteUserByID user ∈ w.calls) := by
  have e : DeleteUserEndpoint env request w =
      SendErrorResponse (w.call (Call.GetUserByID (request.Var "id")
        (decide (Values.Get (env.ParseQuery request.URL.RawQuery) "isAdmin" = "true"))))
        StatusInternalServerError err defaultRes := by
    unfold DeleteUserEndpoint
    simp only [queryGet, hlook]
  simp only [e]
  refine ⟨SendErrorResponse_status _ _ _ _ (by simpa [call_status] using hw), ?_, ?_, ?_, ?_⟩
  · simp [SendErrorResponse_body, call_body]
  · simp [SendErrorResponse_log, call_log]
  · simp [SendErrorResponse_calls, call_calls]
  · intro user hu
    simpa [SendErrorResponse_calls, call_calls] using hu

/-- Witness for C7 as amended: deleting the id `ghost`. -/
theorem delete_lookup_error_witness :
    (DeleteUserEndpoint sampleEnv ghostDelete World.init).status = some 500 ∧
    (DeleteUserEndpoint sampleEnv ghostDelete World.init).calls =
      [Call.GetUserByID "ghost" true] :=
  have h := delete_lookup_error sampleEnv ghostDelete World.init "This user was not found."
    (by decide) rfl
  ⟨h.1, h.2.2.2.1⟩

/-! ## UpdateUserEndpoint -/

/-- A rune matches a letter of a field name exactly when both are the same letter with
case ignored. -/
theorem sameLetter_iff (f c : Nat) (hf : (65 ≤ f ∧ f ≤ 90) ∨ (97 ≤ f ∧ f ≤ 122)) :
    sameLetter f c = true ↔ lowerRune c = lowerRune f := by
  unfold sameLetter lowerRune
  simp only [Bool.or_eq_true, Bool.and_eq_true, decide_eq_true_eq, beq_iff_eq]
  constructor
  · intro h
    split_ifs <;> omega
  · intro h
    split_ifs at h <;> omega

theorem equalFold_iff (fs cs : List Nat)
    (hf : ∀ f ∈ fs, (65 ≤ f ∧ f ≤ 90) ∨ (97 ≤ f ∧ f ≤ 122)) :
    equalFold fs cs = true ↔ cs.map lowerRune = fs.map lowerRune := by
  induction fs generalizing cs with
  | nil => cases cs <;> simp [equalFold]
  | cons f fs ih =>
    cases cs with
    | nil => simp [equalFold]
    | cons c cs =>
      simp only [equalFold, Bool.and_eq_true, List.map_cons, List.cons.injEq]
      rw [sameLetter_iff f c (hf f (List.mem_cons_self _ _)),
        ih cs (fun x hx => hf x (List.mem_cons_of_mem _ hx))]

/-- The decoder stores a member in a field with a name made of letters exactly when the
member is called like the field, case ignored. -/
theorem matchesField_iff (key field : String)
    (hf : ∀ f ∈ runes field, (65 ≤ f ∧ f ≤ 90) ∨ (97 ≤ f ∧ f ≤ 122)) :
    matchesField key field = true ↔ caseless key = caseless field :=
  equalFold_iff (runes field) (runes key) hf

theorem caseless_ID : caseless "ID" = [105, 100] := by decide

theorem caseless_Email : caseless "Email" = [101, 109, 97, 105, 108] := by decide

theorem caseless_Password :
    caseless "Password" = [112, 97, 115, 115, 119, 111, 114, 100] := by decide

theorem caseless_Rank : caseless "Rank" = [114, 97, 110, 107] := by decide

theorem caseless_IsAdmin : caseless "IsAdmin" = [105, 115, 97, 100, 109, 105, 110] := by
  decide

theorem matches_ID (key : String) :
    matchesField key "ID" = true ↔ caseless key = [105, 100] := by
  rw [matchesField_iff key "ID" (by decide), caseless_ID]

theorem matches_Email (key : String) :
    matchesField key "Email" = true ↔ caseless key = [101, 109, 97, 105, 108] := by
  rw [matchesField_iff key "Email" (by decide), caseless_Email]

theorem matches_Password (key : String) :
    matchesField key "Password" = true ↔
      caseless key = [112, 97, 115, 115, 119, 111, 114, 100] := by
  rw [matchesField_iff key "Password" (by decide), caseless_Password]

theorem matches_Rank (key : String) :
    matchesField key "Rank" = true ↔ caseless key = [114, 97, 110, 107] := by
  rw [matchesField_iff key "Rank" (by decide), caseless_Rank]

theorem matches_IsAdmin (key : String) :
    matchesField key "IsAdmin" = true ↔ caseless key = [105, 115, 97, 100, 109, 105, 110] := by
  rw [matchesField_iff key "IsAdmin" (by decide), caseless_IsAdmin]

theorem partialMerge_step (stored u1 : User) (m : String × JVal)
    (h : stored.setMember m = Except.ok u1) (rest : List (String × JVal)) :
    partialMerge u1 rest = partialMerge stored (m :: rest) := by
  obtain ⟨key, v⟩ := m
  unfold User.setMember at h
  simp only [matches_ID, matches_Email, matches_Password, matches_Rank, matches_IsAdmin] at h
  split_ifs at h with h1 h2 h3 h4 h5
  all_goals
    cases v <;> simp only [Except.ok.injEq, reduceCtorEq] at h <;> try split_ifs at h
  all_goals
    try simp only [Except.ok.injEq, reduceCtorEq] at h
  all_goals
    try subst h
  all_goals
    simp only [partialMerge, lastStr, lastNum, lastBool, User.mk.injEq, caseless_ID,
      caseless_Email, caseless_Password, caseless_Rank, caseless_IsAdmin]
    refine ⟨?_, ?_, ?_, ?_, ?_⟩
    · cases lastStr rest "ID" <;> simp [*]
    · cases lastStr rest "Email" <;> simp [*]
    · cases lastStr rest "Password" <;> simp [*]
    · cases lastNum rest "Rank" <;> simp [*]
    · cases lastBool rest "IsAdmin" <;> simp [*]

theorem setMembers_eq_partialMerge (members : List (String × JVal)) (stored merged : User)
    (h : stored.setMembers members = Except.ok merged) :
    merged = partialMerge stored members := by
  induction members generalizing stored with
  | nil =>
    simp only [User.setMembers, Except.ok.injEq] at h
    subst h
    rfl
  | cons m rest ih =>
    simp only [User.setMembers] at h
    cases hm : stored.setMember m with
    | error err => simp [hm] at h
    | ok u1 =>
      simp only [hm] at h
      rw [ih u1 h, partialMerge_step stored u1 m hm rest]

theorem lastStr_absent (name : String) (members : List (String × JVal))
    (h : ∀ m ∈ members, caseless m.1 ≠ caseless name) : lastStr members name = none := by
  induction members with
  | nil => rfl
  | cons m rest ih =>
    simp [lastStr, ih (fun x hx => h x (List.mem_cons_of_mem _ hx)),
      h m (List.mem_cons_self _ _)]

theorem lastNum_absent (name : String) (members : List (String × JVal))
    (h : ∀ m ∈ members, caseless m.1 ≠ caseless name) : lastNum members name = none := by
  induction members with
  | nil => rfl
  | cons m rest ih =>
    simp [lastNum, ih (fun x hx => h x (List.mem_cons_of_mem _ hx)),
      h m (List.mem_cons_self _ _)]

theorem lastBool_absent (name : String) (members : List (String × JVal))
    (h : ∀ m ∈ members, caseless m.1 ≠ caseless name) : lastBool members name = none := by
  induction members with
  | nil => rfl
  | cons m rest ih =>
    simp [lastBool, ih (fun x hx => h x (List.mem_cons_of_mem _ hx)),
      h m (List.mem_cons_self _ _)]

theorem UpdateUserEndpoint_calls_merged (env : Env) (request : Request) (w : World)
    (stored merged : User)
    (hlook : env.GetUserByID (request.Var "id")
      (decide (queryGet env request "isAdmin" = "true")) = Except.ok stored)
    (hdec : decodeUser request.Body stored = Except.ok merged) :
    (UpdateUserEndpoint env request w).calls =
      w.calls ++ [Call.GetUserByID (request.Var "id")
          (decide (queryGet env request "isAdmin" = "true")),
        Call.UpdateUserByID (request.Var "id") merged] := by
  unfold UpdateUserEndpoint
  simp only [hlook, hdec]
  cases env.UpdateUserByID (request.Var "id") merged <;>
    simp [SendErrorResponse_calls, SendSuccessResponse_calls, call_calls]

theorem UpdateUserEndpoint_lookup_error (env : Env) (request : Request) (w : World)
    (err : String)
    (hlook : env.GetUserByID (request.Var "id")
      (decide (queryGet env request "isAdmin" = "true")) = Except.error err) :
    UpdateUserEndpoint env request w =
      SendErrorResponse (w.call (Call.GetUserByID (request.Var "id")
          (decide (queryGet env request "isAdmin" = "true"))))
        StatusInternalServerError err defaultRes := by
  unfold UpdateUserEndpoint
  simp only [hlook]

theorem UpdateUserEndpoint_decode_error (env : Env) (request : Request) (w : World)
    (stored : User) (err : String)
    (hlook : env.GetUserByID (request.Var "id")
      (decide (queryGet env request "isAdmin" = "true")) = Except.ok stored)
    (hdec : decodeUser request.Body stored = Except.error err) :
    UpdateUserEndpoint env request w =
      SendErrorResponse (w.call (Call.GetUserByID (request.Var "id")
          (decide (queryGet env request "isAdmin" = "true"))))
        StatusInternalServerError err defaultRes := by
  unfold UpdateUserEndpoint
  simp only [hlook, hdec]

/-- C8: `UpdateUserEndpoint` is a partial merge onto the stored record. When the
audience-scoped lookup by id finds the record `stored` and the body decodes, the record
handed to `handlers.UpdateUserByID`, under the id that was looked up, is `stored` with
the fields that the body supplies overwritten and every other field unchanged; a body
whose members are all called like the email field, case ignored, leaves every other
field of `stored` as it was, and a body holding just an email string always decodes.
When the lookup or the decode fails, the only call made is the lookup, so nothing is
persisted. -/
theorem update_is_partial_merge (env : Env) (request : Request) (w : World) :
    let id := request.Var "id"
    let isAdmin := decide (Values.Get (env.ParseQuery request.URL.RawQuery) "isAdmin" = "true")
    let out := UpdateUserEndpoint env request w
    (∀ stored members merged, env.GetUserByID id isAdmin = Except.ok stored →
      request.Body = Body.object members →
      decodeUser request.Body stored = Except.ok merged →
        out.calls = w.calls ++ [Call.GetUserByID id isAdmin, Call.UpdateUserByID id merged] ∧
        merged = partialMerge stored members ∧
        ((∀ m ∈ members, caseless m.1 = caseless "Email") →
          merged.ID = stored.ID ∧ merged.Password = stored.Password ∧
          merged.Rank = stored.Rank ∧ merged.IsAdmin = stored.IsAdmin)) ∧
    (∀ stored email, env.GetUserByID id isAdmin = Except.ok stored →
      request.Body = Body.object [("email", JVal.str email)] →
        out.calls = w.calls ++ [Call.GetUserByID id isAdmin,
          Call.UpdateUserByID id { stored with Email := email }]) ∧
    (∀ err, env.GetUserByID id isAdmin = Except.error err →
      out.calls = w.calls ++ [Call.GetUserByID id isAdmin]) ∧
    (∀ stored err, env.GetUserByID id isAdmin = Except.ok stored →
      decodeUser request.Body stored = Except.error err →
        out.calls = w.calls ++ [Call.GetUserByID id isAdmin]) := by
  refine ⟨?_, ?_, ?_, ?_⟩
  · intro stored members merged hlook hbody hdec
    have hm : merged = partialMerge stored members := by
      rw [hbody] at hdec
      exact setMembers_eq_partialMerge members stored merged hdec
    refine ⟨UpdateUserEndpoint_calls_merged env request w stored merged hlook hdec, hm, ?_⟩
    intro honly
    have hne : ∀ name : String, caseless name ≠ caseless "Email" →
        ∀ m ∈ members, caseless m.1 ≠ caseless name :=
      fun name hn m hmem hfn => hn (hfn ▸ honly m hmem)
    rw [hm]
    simp [partialMerge, lastStr_absent "ID" members (hne "ID" (by decide)),
      lastStr_absent "Password" members (hne "Password" (by decide)),
      lastNum_absent "Rank" members (hne "Rank" (by decide)),
      lastBool_absent "IsAdmin" members (hne "IsAdmin" (by decide))]
  · intro stored email hlook hbody
    refine UpdateUserEndpoint_calls_merged env request w stored _ hlook ?_
    rw [hbody]
    rfl
  · intro err hlook
    rw [UpdateUserEndpoint_lookup_error env request w err hlook]
    simp [SendErrorResponse_calls, call_calls, queryGet]
  · intro stored err hlook hdec
    rw [UpdateUserEndpoint_decode_error env request w stored err hlook hdec]
    simp [SendErrorResponse_calls, call_calls, queryGet]

/-- Witness for C8: updating only the email of `sampleAdmin` persists the stored record
with the new email, a password member spelled with long s overwrites the password and
nothing else, and an unknown id, a mistyped rank and a rank beyond the integer range
persist nothing. -/
theorem update_is_partial_merge_witness :
    ((UpdateUserEndpoint sampleEnv emailUpdate World.init).calls =
        [Call.GetUserByID "u1" true,
         Call.UpdateUserByID "u1" ⟨"u1", "new@mrkt.io", "hash(secret123)", 3, true⟩] ∧
      (⟨"u1", "new@mrkt.io", "hash(secret123)", 3, true⟩ : User).Password
        = sampleAdmin.Password) ∧
    (UpdateUserEndpoint sampleEnv emailUpdate World.init).calls =
      [Call.GetUserByID "u1" true,
       Call.UpdateUserByID "u1" { sampleAdmin with Email := "new@mrkt.io" }] ∧
    (UpdateUserEndpoint sampleEnv longEssUpdate World.init).calls =
      [Call.GetUserByID "u1" true,
       Call.UpdateUserByID "u1" ⟨"u1", "root@mrkt.io", "hash(other)", 3, true⟩] ∧
    (UpdateUserEndpoint sampleEnv ghostUpdate World.init).calls =
      [Call.GetUserByID "ghost" true] ∧
    (UpdateUserEndpoint sampleEnv mistypedUpdate World.init).calls =
      [Call.GetUserByID "u1" true] ∧
    (UpdateUserEndpoint sampleEnv overflowUpdate World.init).calls =
      [Call.GetUserByID "u1" true] :=
  have h := ((update_is_partial_merge sampleEnv emailUpdate World.init).1 sampleAdmin
    [("email", JVal.str "new@mrkt.io")] ⟨"u1", "new@mrkt.io", "hash(secret123)", 3, true⟩
    rfl rfl rfl)
  ⟨⟨h.1, (h.2.2 (by decide)).2.1⟩,
   (update_is_partial_merge sampleEnv emailUpdate World.init).2.1 sampleAdmin
    "new@mrkt.io" rfl rfl,
   ((update_is_partial_merge sampleEnv longEssUpdate World.init).1 sampleAdmin
    [("paſſword", JVal.str "hash(other)")] ⟨"u1", "root@mrkt.io", "hash(other)", 3, true⟩
    rfl rfl rfl).1,
   (update_is_partial_merge sampleEnv ghostUpdate World.init).2.2.1
    "This user was not found." rfl,
   (update_is_partial_merge sampleEnv mistypedUpdate World.init).2.2.2 sampleAdmin
    "json: cannot unmarshal string into Go struct field User.Rank of type int" rfl rfl,
   (update_is_partial_merge sampleEnv overflowUpdate World.init).2.2.2 sampleAdmin
    "json: cannot unmarshal number 9223372036854775808 into Go struct field User.Rank of type int"
    rfl rfl⟩

/-! ## Decode failures and the diagnostic log -/

/-- Counterexample to C9 as stated: a login body that does not decode is answered with
status 400, and nothing is written to the diagnostic log. -/
theorem login_decode_failure_is_bad_request :
    (AdminLoginEndpoint sampleEnv truncatedLogin World.init).status = some 400 ∧
    (AdminLoginEndpoint sampleEnv truncatedLogin World.init).status ≠ some 500 ∧
    (AdminLoginEndpoint sampleEnv truncatedLogin World.init).body =
      [{ status := "error", message := some "unexpected EOF", data := defaultRes }] ∧
    (AdminLoginEndpoint sampleEnv truncatedLogin World.init).log = [] := by
  decide

/-- C9 as amended: a body that fails to decode is a server fault in `CreateUserEndpoint`
and `UpdateUserEndpoint` (status 500, the decode error written to the diagnostic log,
no call that changes the store) and a bad request in `AdminLoginEndpoint` (status 400
with the decode error as message, nothing logged, no call at all); and
`SendErrorResponse` writes to the diagnostic log if and only if the status is 500. -/
theorem decode_failure_responses (env : Env) (request : Request) (w : World)
    (err : String) (hw : w.status = none) :
    (decodeUser request.Body env.GetDefaultUser = Except.error err →
      (CreateUserEndpoint env request w).status = some 500 ∧
      (CreateUserEndpoint env request w).log = w.log ++ [err] ∧
      (CreateUserEndpoint env request w).calls = w.calls) ∧
    (∀ stored, env.GetUserByID (request.Var "id")
        (decide (Values.Get (env.ParseQuery request.URL.RawQuery) "isAdmin" = "true")) =
          Except.ok stored →
      decodeUser request.Body stored = Except.error err →
        (UpdateUserEndpoint env request w).status = some 500 ∧
        (UpdateUserEndpoint env request w).log = w.log ++ [err] ∧
        (∀ c ∈ (UpdateUserEndpoint env request w).calls, c ∉ w.calls → c.mutates = false)) ∧
    (decodeLogin request.Body = Except.error err →
      (AdminLoginEndpoint env request w).status = some 400 ∧
      (AdminLoginEndpoint env request w).body =
        w.body ++ [{ status := "error", message := some err, data := defaultRes }] ∧
      (AdminLoginEndpoint env request w).log = w.log ∧
      (AdminLoginEndpoint env request w).calls = w.calls) ∧
    (∀ (r : World) (status : Nat) (message : String) (data : Data),
      (SendErrorResponse r status message data).log ≠ r.log ↔ status = 500) := by
  refine ⟨?_, ?_, ?_, ?_⟩
  · intro hdec
    have e : CreateUserEndpoint env request w =
        SendErrorResponse w StatusInternalServerError err defaultRes := by
      unfold CreateUserEndpoint
      simp only [hdec]
    rw [e]
    exact ⟨SendErrorResponse_status _ _ _ _ hw, by simp [SendErrorResponse_log],
      SendErrorResponse_calls _ _ _ _⟩
  · intro stored hlook hdec
    rw [UpdateUserEndpoint_decode_error env request w stored err hlook hdec]
    refine ⟨SendErrorResponse_status _ _ _ _ (by simpa [call_status] using hw),
      by simp [SendErrorResponse_log, call_log], ?_⟩
    intro c hc hnot
    simp only [SendErrorResponse_calls, call_calls, List.mem_append, List.mem_singleton] at hc
    rcases hc with hc | hc
    · exact absurd hc hnot
    · subst hc
      rfl
  · intro hdec
    have e : AdminLoginEndpoint env request w =
        SendErrorResponse w StatusBadRequest err defaultRes := by
      unfold AdminLoginEndpoint
      simp only [hdec]
    rw [e]
    refine ⟨SendErrorResponse_status _ _ _ _ hw, SendErrorResponse_body _ _ _ _, ?_,
      SendErrorResponse_calls _ _ _ _⟩
    simp [SendErrorResponse_log, StatusBadRequest, StatusInternalServerError]
  · intro r status message data
    rw [SendErrorResponse_log]
    by_cases h : status = 500
    · simp [h, StatusInternalServerError]
    · simp [h, StatusInternalServerError]

/-- Witness for C9 as amended: a mistyped create body and a mistyped update body are
logged 500s, a truncated login body is an unlogged 400, and a 403 is not logged. -/
theorem decode_failure_responses_witness :
    ((CreateUserEndpoint sampleEnv mistypedCreate World.init).status = some 500 ∧
      (CreateUserEndpoint sampleEnv mistypedCreate World.init).log =
        ["json: cannot unmarshal number into Go struct field User.Email of type string"]) ∧
    ((UpdateUserEndpoint sampleEnv mistypedUpdate World.init).status = some 500 ∧
      (UpdateUserEndpoint sampleEnv mistypedUpdate World.init).log =
        ["json: cannot unmarshal string into Go struct field User.Rank of type int"]) ∧
    ((AdminLoginEndpoint sampleEnv truncatedLogin World.init).status = some 400 ∧
      (AdminLoginEndpoint sampleEnv truncatedLogin World.init).log = []) ∧
    ((SendErrorResponse World.init 403 constants.AccessDenied defaultRes).log ≠
      World.init.log ↔ 403 = 500) :=
  have h1 := (decode_failure_responses sampleEnv mistypedCreate World.init
    "json: cannot unmarshal number into Go struct field User.Email of type string"
    (by decide)).1 rfl
  have h2 := (decode_failure_responses sampleEnv mistypedUpdate World.init
    "json: cannot unmarshal string into Go struct field User.Rank of type int"
    (by decide)).2.1 sampleAdmin rfl rfl
  have h3 := (decode_failure_responses sampleEnv truncatedLogin World.init
    "unexpected EOF" (by decide)).2.2.1 rfl
  ⟨⟨h1.1, h1.2.1⟩, ⟨h2.1, h2.2.1⟩, ⟨h3.1, h3.2.2.1⟩,
   (decode_failure_responses sampleEnv truncatedLogin World.init
    "unexpected EOF" (by decide)).2.2.2 World.init 403 constants.AccessDenied defaultRes⟩

end Mrkt
